import Mathlib

/-!
Verification of the residency-and-travel day-apportionment engine
(`taxcalendar.py`): the `Interval` record, `TaxCalendar` construction and
validation, the `FindLocations` apportionment algorithm, the
`FindLocationsForYear` wrapper and the `IsCountryOrStateOf` predicate.

Modelling conventions:
* a `datetime` value parsed from a `"YYYY-MM-DD"` string is represented by
  its proleptic-Gregorian day number (days since 1970-01-01, the standard
  civil-from-days arithmetic); ordering, `max`/`min` and day differences of
  `datetime` values coincide with those of day numbers, and `.year` is
  recovered by `yearOf`;
* `collections.defaultdict(int)` is an insertion-ordered association list
  `DayMap`; a missing key reads as `0`, and `days[k] += v` is `addTo`;
* a raised `ValueError` / `AssertionError` / `UnboundLocalError` is an
  `Except CalcError` value;
* `datetime.date.today().year` is an ambient input, passed explicitly as
  the `todayYear` parameter of construction.
-/

namespace TaxCal

/-- Day number of the proleptic-Gregorian date `y-m-d`, counted from
1970-01-01 (the standard civil-from-days conversion, using truncating
integer division exactly as the reference algorithm does). -/
def daysFromCivil (y m d : Int) : Int :=
  let yy := if m ≤ 2 then y - 1 else y
  let era := (if 0 ≤ yy then yy else yy - 399) / 400
  let yoe := yy - era * 400
  let mp := (m + 9) % 12
  let doy := (153 * mp + 2) / 5 + d - 1
  let doe := yoe * 365 + yoe / 4 - yoe / 100 + doy
  era * 146097 + doe - 719468

/-- The calendar year of a day number: the `.year` attribute of the
`datetime` value the day number represents (inverse civil conversion). -/
def yearOf (days : Int) : Int :=
  let z := days + 719468
  let era := (if 0 ≤ z then z else z - 146096) / 146097
  let doe := z - era * 146097
  let yoe := (doe - doe / 1460 + doe / 36524 - doe / 146096) / 365
  let y := yoe + era * 400
  let doy := doe - (365 * yoe + yoe / 4 - yoe / 100)
  let mp := (5 * doy + 2) / 153
  let m := if mp < 10 then mp + 3 else mp - 9
  if m ≤ 2 then y + 1 else y

/-- `Interval(start, end, country)`: an inclusive date interval tagged with
a country label.  `stop` is the field called `end` in the source (`end` is
a reserved word here).  Dates are day numbers. -/
structure Interval where
  start : Int
  stop : Int
  country : String
deriving DecidableEq, Repr

instance : Inhabited Interval := ⟨⟨0, 0, ""⟩⟩

/-- `Interval.Intersect(start, end)`: the overlap of the interval with the
query range, `None` when `end >= self.start and start <= self.end` fails. -/
def Interval.intersect (i : Interval) (s e : Int) : Option (Int × Int) :=
  if e ≥ i.start ∧ s ≤ i.stop then some (max s i.start, min e i.stop) else none

/-- `Interval.__len__` / `Interval.Duration()`: `(end - start).days + 1`. -/
def Interval.duration (i : Interval) : Int := i.stop - i.start + 1

/-- The per-country day counter: a Python `collections.defaultdict(int)`
as an insertion-ordered association list. -/
abbrev DayMap := List (String × Int)

/-- `days[k] += v` on a `defaultdict(int)`: update the (unique) entry for
`k` in place, or append a fresh entry initialised from the default `0`. -/
def addTo : DayMap → String → Int → DayMap
  | [], k, v => [(k, v)]
  | (k', v') :: rest, k, v =>
    if k' = k then (k', v' + v) :: rest else (k', v') :: addTo rest k v

/-- `days[k]` as a read: the stored value, or the default `0`. -/
def getD : DayMap → String → Int
  | [], _ => 0
  | (k', v') :: rest, k => if k' = k then v' else getD rest k

/-- `sum(days.values())`. -/
def sumValues (m : DayMap) : Int := (m.map Prod.snd).sum

/-- Python `candidate.startswith(pre)` on strings. -/
def startswith (s pre : String) : Bool := pre.data.isPrefixOf s.data

/-- `TaxCalendar.IsCountryOrStateOf(country1, country2)`: `country1 ==
country2 or (country2 is not None and country1.startswith(country2 +
"_"))`.  `country2` may be `None`; a string never equals `None`. -/
def IsCountryOrStateOf (country1 : String) (country2 : Option String) : Bool :=
  match country2 with
  | some c2 => country1 == c2 || startswith country1 (c2 ++ "_")
  | none => false

/-- The error outcomes of the engine: each constructor is one of the
`ValueError`s raised by the source, plus the `assert` failure and the
unbound `expected_total` read in `FindLocations`. -/
inductive CalcError where
  | emptyResidence
  | invalidInterval
  | overlappingIntervals
  | nonContiguous
  | assertionError
  | unboundLocal
  | totalsMismatch
  | invalidYearTotal
deriving DecidableEq, Repr

/-- `list.sort(key=lambda interval: interval.start)`: Python's stable sort
by start date (insertion sort is stable, hence yields the same list). -/
def sortByStart (l : List Interval) : List Interval :=
  List.insertionSort (fun a b => a.start ≤ b.start) l

/-- The pairwise-neighbour overlap test of `CheckIntervals`: `true` when no
adjacent pair has `this.end > next.start`. -/
def adjacentOk : List Interval → Bool
  | a :: b :: rest => (a.stop ≤ b.start) && adjacentOk (b :: rest)
  | _ => true

/-- The contiguity test on residence: every adjacent pair satisfies
`next.start - this.end == timedelta(1)`. -/
def contiguousOk : List Interval → Bool
  | a :: b :: rest => (b.start - a.stop = 1) && contiguousOk (b :: rest)
  | _ => true

/-- `CheckIntervals`: first every interval must have length at least one
day, then no adjacent pair may overlap (strict `end > next.start`). -/
def checkIntervals (intervals : List Interval) : Except CalcError Unit :=
  if intervals.all (fun i => 1 ≤ i.duration) then
    if adjacentOk intervals then .ok () else .error .overlappingIntervals
  else .error .invalidInterval

/-- `range(a, b)` on integers. -/
def intRange (a b : Int) : List Int :=
  (List.range (b - a).toNat).map (fun i => a + i)

/-- The validated calendar: the two sorted interval lists and the derived
`years` range. -/
structure TaxCalendar where
  residence : List Interval
  businesstrips : List Interval
  years : List Int
deriving DecidableEq, Repr

/-- The validation part of `__init__`, applied to the already sorted
lists: run `CheckIntervals` on trips then on residence, check residence
contiguity, and derive `years = range(minyear, maxyear + 1)` with
`minyear = residence[0].start.year`,
`maxyear = min(residence[-1].end.year, today.year)`. -/
def mkChecked (residence businesstrips : List Interval) (todayYear : Int) :
    Except CalcError TaxCalendar :=
  match checkIntervals businesstrips with
  | .error e => .error e
  | .ok _ =>
    match checkIntervals residence with
    | .error e => .error e
    | .ok _ =>
      if contiguousOk residence then
        .ok { residence := residence, businesstrips := businesstrips,
              years := intRange (yearOf (residence.headD default).start)
                (min (yearOf (residence.getLastD default).stop) todayYear + 1) }
      else .error .nonContiguous

/-- `TaxCalendar.__init__(residence, businesstrips)` as a function of the
list values: reject an empty residence list, sort both lists by start
date, then validate. -/
def mkTaxCalendar (residence0 businesstrips0 : List Interval) (todayYear : Int) :
    Except CalcError TaxCalendar :=
  if residence0.isEmpty then .error .emptyResidence
  else mkChecked (sortByStart residence0) (sortByStart businesstrips0) todayYear

/-- One business trip inside the trip loop of `FindLocations`: intersect
the trip with the residence-segment overlap; skip trips to `"JP"` when
`taxcountry == "JP"`; otherwise credit the destination bucket and debit
the residence-country bucket by the trip's day count. -/
def tripStep (taxcountry : Option String) (thisStart thisEnd : Int)
    (resCountry : String) (days : DayMap) (trip : Interval) : DayMap :=
  match trip.intersect thisStart thisEnd with
  | none => days
  | some (tripStart, tripEnd) =>
    let tripDays := tripEnd - tripStart + 1
    if trip.country = "JP" ∧ taxcountry = some "JP" then days
    else addTo (addTo days trip.country tripDays) resCountry (-tripDays)

/-- The whole trip loop for one residence segment. -/
def processTrips (trips : List Interval) (taxcountry : Option String)
    (thisStart thisEnd : Int) (resCountry : String) (days : DayMap) : DayMap :=
  trips.foldl (tripStep taxcountry thisStart thisEnd resCountry) days

/-- One residence segment of the `FindLocations` loop.  The accumulator
carries `days` and the `expected_total` local, which is `none` until its
first assignment.  A segment with no window overlap is skipped; otherwise
the trip loop runs (when `include_trips`), the `assert numdays >= 0` is
checked, `numdays` is credited to the residence country and
`expected_total` is assigned `(end - start).days + 1`. -/
def resStep (trips : List Interval) (taxcountry : Option String)
    (includeTrips : Bool) (s e : Int) (acc : DayMap × Option Int)
    (residence : Interval) : Except CalcError (DayMap × Option Int) :=
  match residence.intersect s e with
  | none => .ok acc
  | some (thisStart, thisEnd) =>
    let numdays := thisEnd - thisStart + 1
    let days :=
      if includeTrips then
        processTrips trips taxcountry thisStart thisEnd residence.country acc.1
      else acc.1
    if 0 ≤ numdays then
      .ok (addTo days residence.country numdays, some (e - s + 1))
    else .error .assertionError

/-- The `for residence in self.residence` loop of `FindLocations`: run
`resStep` on each segment in order, stopping at the first raised error. -/
def resLoop (trips : List Interval) (taxcountry : Option String)
    (includeTrips : Bool) (s e : Int) :
    List Interval → DayMap × Option Int → Except CalcError (DayMap × Option Int)
  | [], acc => .ok acc
  | residence :: rest, acc =>
    match resStep trips taxcountry includeTrips s e acc residence with
    | .error err => .error err
    | .ok acc' => resLoop trips taxcountry includeTrips s e rest acc'

/-- `TaxCalendar.FindLocations(start, end, taxcountry, include_trips)`:
run the residence loop, then compare `sum(days.values())` against
`expected_total` (reading `expected_total` before any assignment raises,
modelled by `unboundLocal`). -/
def findLocations (cal : TaxCalendar) (s e : Int) (taxcountry : Option String)
    (includeTrips : Bool) : Except CalcError DayMap :=
  match resLoop cal.businesstrips taxcountry includeTrips s e cal.residence ([], none) with
  | .error err => .error err
  | .ok (days, expectedTotal) =>
    match expectedTotal with
    | none => .error .unboundLocal
    | some t => if sumValues days ≠ t then .error .totalsMismatch else .ok days

/-- `TaxCalendar.FindLocationsForYear(year)`: `FindLocations` for
January 1 through December 31 with the default `taxcountry=None`,
`include_trips=True`, then reject totals other than 365 or 366. -/
def findLocationsForYear (cal : TaxCalendar) (year : Int) : Except CalcError DayMap :=
  match findLocations cal (daysFromCivil year 1 1) (daysFromCivil year 12 31)
      none true with
  | .error err => .error err
  | .ok locations =>
    if sumValues locations = 365 ∨ sumValues locations = 366 then .ok locations
    else .error .invalidYearTotal

/-- `TaxCalendar.GetYears()`. -/
def getYears (cal : TaxCalendar) : List Int := cal.years

/-- `GetYears` with the receiver's state threaded explicitly: the method
body only reads `self.years` and assigns no attribute, so the outgoing
state is the incoming one. -/
def getYearsM (cal : TaxCalendar) : List Int × TaxCalendar := (getYears cal, cal)

/-- `FindLocations` with the receiver's state threaded explicitly: the
method body reads `self.residence` and `self.businesstrips` into a fresh
local `defaultdict` and assigns no attribute. -/
def findLocationsM (cal : TaxCalendar) (s e : Int) (taxcountry : Option String)
    (includeTrips : Bool) : Except CalcError DayMap × TaxCalendar :=
  (findLocations cal s e taxcountry includeTrips, cal)

/-- `FindLocationsForYear` with the receiver's state threaded explicitly. -/
def findLocationsForYearM (cal : TaxCalendar) (year : Int) :
    Except CalcError DayMap × TaxCalendar :=
  (findLocationsForYear cal year, cal)

/-- A store of Python list objects, addressed by reference. -/
def Heap := Nat → List Interval

/-- The constructed object as Python sees it: the `residence` and
`businesstrips` attributes are references to the caller's list objects. -/
structure PyTaxCalendar where
  residenceRef : Nat
  tripsRef : Nat
  years : List Int
deriving Repr

/-- The validation part of `__init__`, reading the (already sorted) lists
through the object's stored references. -/
def pyInitChecks (h2 : Heap) (rRes rTrips : Nat) (todayYear : Int) :
    Except CalcError PyTaxCalendar :=
  match checkIntervals (h2 rTrips) with
  | .error e => .error e
  | .ok _ =>
    match checkIntervals (h2 rRes) with
    | .error e => .error e
    | .ok _ =>
      if contiguousOk (h2 rRes) then
        .ok { residenceRef := rRes, tripsRef := rTrips,
              years := intRange (yearOf ((h2 rRes).headD default).start)
                (min (yearOf ((h2 rRes).getLastD default).stop) todayYear + 1) }
      else .error .nonContiguous

/-- The in-place mutation performed by `__init__`: first
`self.residence.sort(...)` rewrites the list object at `rRes`, then
`self.businesstrips.sort(...)` rewrites the list object at `rTrips`
(reading through the first update, which matters if both names alias one
object). -/
def sortHeap (h : Heap) (rRes rTrips : Nat) : Heap :=
  let h1 : Heap := fun r => if r = rRes then sortByStart (h r) else h r
  fun r => if r = rTrips then sortByStart (h1 r) else h1 r

/-- `TaxCalendar.__init__` at the level of list objects: the constructor
stores the caller's two lists by reference and calls `list.sort` on each,
mutating them in place (the mutation persists also when a later validation
step raises), then validates through the stored references. -/
def pyInit (h : Heap) (rRes rTrips : Nat) (todayYear : Int) :
    Heap × Except CalcError PyTaxCalendar :=
  if (h rRes).isEmpty then (h, .error .emptyResidence)
  else (sortHeap h rRes rTrips, pyInitChecks (sortHeap h rRes rTrips) rRes rTrips todayYear)

/-- Day count contributed by one residence segment to a window: the
inclusive length of its overlap, `0` when there is none. -/
def olen (i : Interval) (s e : Int) : Int :=
  match i.intersect s e with
  | some (a, b) => b - a + 1
  | none => 0

/-- Sum of the overlap lengths of a list of segments with a window. -/
def sumOlen (l : List Interval) (s e : Int) : Int :=
  (l.map (fun i => olen i s e)).sum

/-- Start date of the first interval of a list (`0` for the empty list). -/
def headStart : List Interval → Int
  | [] => 0
  | a :: _ => a.start

/-- End date of the last interval of a list (`0` for the empty list). -/
def lastStop : List Interval → Int
  | [] => 0
  | [a] => a.stop
  | _ :: b :: rest => lastStop (b :: rest)

instance : IsTotal Interval (fun a b => a.start ≤ b.start) :=
  ⟨fun a b => le_total a.start b.start⟩

instance : IsTrans Interval (fun a b => a.start ≤ b.start) :=
  ⟨fun _ _ _ h1 h2 => le_trans h1 h2⟩

/-! ### Basic lemmas about the day-counter map -/

lemma sumValues_nil : sumValues [] = 0 := rfl

lemma sumValues_cons (k : String) (v : Int) (m : DayMap) :
    sumValues ((k, v) :: m) = v + sumValues m := by
  simp [sumValues]

lemma sumValues_addTo (m : DayMap) (k : String) (v : Int) :
    sumValues (addTo m k v) = sumValues m + v := by
  induction m with
  | nil => simp [addTo, sumValues]
  | cons p rest ih =>
    obtain ⟨k', v'⟩ := p
    by_cases hk : k' = k
    · simp [addTo, hk, sumValues_cons]
      ring
    · simp [addTo, hk, sumValues_cons, ih]
      ring

lemma addTo_ne_nil (m : DayMap) (k : String) (v : Int) : addTo m k v ≠ [] := by
  cases m with
  | nil => simp [addTo]
  | cons p rest =>
    obtain ⟨k', v'⟩ := p
    by_cases hk : k' = k <;> simp [addTo, hk]

lemma sumValues_tripStep (tc : Option String) (a b : Int) (c : String)
    (days : DayMap) (t : Interval) :
    sumValues (tripStep tc a b c days t) = sumValues days := by
  unfold tripStep
  cases h : t.intersect a b with
  | none => rfl
  | some p =>
    obtain ⟨x, y⟩ := p
    by_cases hskip : t.country = "JP" ∧ tc = some "JP"
    · simp [hskip]
    · simp [hskip, sumValues_addTo]
      ring

lemma sumValues_processTrips (trips : List Interval) (tc : Option String)
    (a b : Int) (c : String) (days : DayMap) :
    sumValues (processTrips trips tc a b c days) = sumValues days := by
  induction trips generalizing days with
  | nil => rfl
  | cons t rest ih =>
    unfold processTrips at ih ⊢
    rw [List.foldl_cons, ih, sumValues_tripStep]

/-! ### Lemmas about interval intersection -/

lemma intersect_eq_some {i : Interval} {s e a b : Int}
    (h : i.intersect s e = some (a, b)) :
    a = max s i.start ∧ b = min e i.stop ∧ i.start ≤ e ∧ s ≤ i.stop := by
  unfold Interval.intersect at h
  split_ifs at h with hg
  · obtain ⟨h1, h2⟩ := Prod.mk.injEq .. ▸ Option.some.injEq .. ▸ h
    exact ⟨h1.symm, h2.symm, hg.1, hg.2⟩

lemma intersect_le {i : Interval} {s e a b : Int} (hse : s ≤ e)
    (hd : i.start ≤ i.stop) (h : i.intersect s e = some (a, b)) : a ≤ b := by
  obtain ⟨ha, hb, h1, h2⟩ := intersect_eq_some h
  subst ha hb
  exact le_min (max_le hse h1) (max_le h2 hd)

lemma intersect_none_of_lt {i : Interval} {s e : Int} (h : e < i.start) :
    i.intersect s e = none := by
  unfold Interval.intersect
  rw [if_neg]
  intro hg
  omega

lemma olen_of_some {i : Interval} {s e a b : Int}
    (h : i.intersect s e = some (a, b)) : olen i s e = b - a + 1 := by
  simp [olen, h]

lemma olen_of_none {i : Interval} {s e : Int}
    (h : i.intersect s e = none) : olen i s e = 0 := by
  simp [olen, h]

lemma sumOlen_nil (s e : Int) : sumOlen [] s e = 0 := rfl

lemma sumOlen_cons (i : Interval) (l : List Interval) (s e : Int) :
    sumOlen (i :: l) s e = olen i s e + sumOlen l s e := by
  simp [sumOlen]

lemma sumOlen_zero {l : List Interval} {s e : Int}
    (h : ∀ i ∈ l, olen i s e = 0) : sumOlen l s e = 0 := by
  induction l with
  | nil => rfl
  | cons a rest ih =>
    rw [sumOlen_cons, h a (by simp), ih (fun i hi => h i (by simp [hi]))]
    omega

lemma sumOlen_congr {l : List Interval} {s s' e : Int}
    (h : ∀ i ∈ l, olen i s e = olen i s' e) : sumOlen l s e = sumOlen l s' e := by
  induction l with
  | nil => rfl
  | cons a rest ih =>
    rw [sumOlen_cons, sumOlen_cons, h a (by simp),
      ih (fun i hi => h i (by simp [hi]))]

/-! ### Lemmas about construction -/

lemma checkIntervals_ok {l : List Interval} {u : Unit}
    (h : checkIntervals l = .ok u) :
    (∀ i ∈ l, i.start ≤ i.stop) ∧ adjacentOk l = true := by
  unfold checkIntervals at h
  split_ifs at h with h1 h2
  refine ⟨fun i hi => ?_, h2⟩
  have hd := List.all_eq_true.mp h1 i hi
  simp only [decide_eq_true_eq, Interval.duration] at hd
  omega

lemma sortByStart_perm (l : List Interval) : (sortByStart l).Perm l :=
  List.perm_insertionSort _ l

lemma sortByStart_ne_nil {l : List Interval} (h : l ≠ []) : sortByStart l ≠ [] := by
  intro hs
  have hperm := sortByStart_perm l
  rw [hs] at hperm
  exact h hperm.symm.eq_nil

lemma mkChecked_ok {res trips : List Interval} {ty : Int} {cal : TaxCalendar}
    (h : mkChecked res trips ty = .ok cal) :
    cal.residence = res ∧ cal.businesstrips = trips ∧
    (∀ i ∈ res, i.start ≤ i.stop) ∧ adjacentOk res = true ∧
    contiguousOk res = true ∧
    (∀ i ∈ trips, i.start ≤ i.stop) ∧ adjacentOk trips = true := by
  unfold mkChecked at h
  split at h
  · cases h
  · rename_i u ht
    split at h
    · cases h
    · rename_i u' hr
      split_ifs at h with hc
      obtain ⟨hdr, har⟩ := checkIntervals_ok hr
      obtain ⟨hdt, hat⟩ := checkIntervals_ok ht
      cases h
      exact ⟨rfl, rfl, hdr, har, hc, hdt, hat⟩

lemma mkTaxCalendar_ok {r0 t0 : List Interval} {ty : Int} {cal : TaxCalendar}
    (h : mkTaxCalendar r0 t0 ty = .ok cal) :
    cal.residence = sortByStart r0 ∧ cal.businesstrips = sortByStart t0 ∧
    cal.residence ≠ [] ∧ (∀ i ∈ cal.residence, i.start ≤ i.stop) ∧
    adjacentOk cal.residence = true ∧ contiguousOk cal.residence = true ∧
    (∀ i ∈ cal.businesstrips, i.start ≤ i.stop) ∧
    adjacentOk cal.businesstrips = true := by
  unfold mkTaxCalendar at h
  by_cases h0 : r0.isEmpty = true
  · rw [if_pos h0] at h
    cases h
  · rw [if_neg h0] at h
    obtain ⟨h1, h2, hdr, har, hc, hdt, hat⟩ := mkChecked_ok h
    refine ⟨h1, h2, ?_, h1 ▸ hdr, h1 ▸ har, h1 ▸ hc, h2 ▸ hdt, h2 ▸ hat⟩
    rw [h1]
    exact sortByStart_ne_nil (by simpa using h0)

/-! ### Coverage: contiguous sorted residence segments tile a window -/

lemma contiguous_gap {a b : Interval} {rest : List Interval}
    (h : contiguousOk (a :: b :: rest) = true) :
    b.start - a.stop = 1 ∧ contiguousOk (b :: rest) = true := by
  have := h
  unfold contiguousOk at this
  simpa using this

lemma lower_starts :
    ∀ {a : Interval} {rest : List Interval},
      contiguousOk (a :: rest) = true → (∀ i ∈ a :: rest, i.start ≤ i.stop) →
      ∀ i ∈ rest, a.stop < i.start := by
  intro a rest
  induction rest generalizing a with
  | nil => intro _ _ i hi; cases hi
  | cons b rest ih =>
    intro hc hd i hi
    obtain ⟨h1, h2⟩ := contiguous_gap hc
    rcases List.mem_cons.mp hi with rfl | hi'
    · omega
    · have hb := ih h2 (fun j hj => hd j (List.mem_cons_of_mem _ hj)) i hi'
      have hdb := hd b (by simp)
      omega

lemma sumOlen_covers (e : Int) :
    ∀ (l : List Interval) (s : Int), s ≤ e →
      (∀ i ∈ l, i.start ≤ i.stop) → contiguousOk l = true →
      headStart l ≤ s → e ≤ lastStop l → l ≠ [] →
      sumOlen l s e = e - s + 1 := by
  intro l
  induction l with
  | nil => intro s _ _ _ _ _ hne; exact absurd rfl hne
  | cons a tl ih =>
    intro s hse hd hc hh hl _
    simp only [headStart] at hh
    have hda : a.start ≤ a.stop := hd a (by simp)
    cases tl with
    | nil =>
      simp only [lastStop] at hl
      have hia : a.intersect s e = some (max s a.start, min e a.stop) := by
        unfold Interval.intersect
        rw [if_pos ⟨by omega, by omega⟩]
      rw [sumOlen_cons, olen_of_some hia, sumOlen_nil,
        max_eq_left hh, min_eq_left hl]
      omega
    | cons b rest =>
      obtain ⟨hb1, hb2⟩ := contiguous_gap hc
      have hstarts := lower_starts hc hd
      have hdtl : ∀ i ∈ b :: rest, i.start ≤ i.stop :=
        fun i hi => hd i (List.mem_cons_of_mem _ hi)
      have hltl : e ≤ lastStop (b :: rest) := hl
      have hdb : b.start ≤ b.stop := hdtl b (by simp)
      by_cases he : e ≤ a.stop
      · have h0 : ∀ i ∈ b :: rest, olen i s e = 0 := fun i hi =>
          olen_of_none (intersect_none_of_lt (lt_of_le_of_lt he (hstarts i hi)))
        have hia : a.intersect s e = some (max s a.start, min e a.stop) := by
          unfold Interval.intersect
          rw [if_pos ⟨by omega, by omega⟩]
        rw [sumOlen_cons, olen_of_some hia, sumOlen_zero h0,
          max_eq_left hh, min_eq_left he]
        omega
      · push_neg at he
        by_cases hs : s ≤ a.stop
        · have hia : a.intersect s e = some (max s a.start, min e a.stop) := by
            unfold Interval.intersect
            rw [if_pos ⟨by omega, hs⟩]
          have hcg : ∀ i ∈ b :: rest, olen i s e = olen i b.start e := by
            intro i hi
            have hst := hstarts i hi
            have hdi := hdtl i hi
            unfold olen Interval.intersect
            by_cases hge : e ≥ i.start
            · rw [if_pos ⟨hge, by omega⟩, if_pos ⟨hge, by omega⟩,
                max_eq_right (by omega), max_eq_right (by omega)]
            · rw [if_neg (fun hg => hge hg.1), if_neg (fun hg => hge hg.1)]
          have htail := ih b.start (by omega) hdtl hb2
            (by simp [headStart]) hltl (by simp)
          rw [sumOlen_cons, olen_of_some hia, sumOlen_congr hcg, htail,
            max_eq_left hh, min_eq_right (by omega)]
          omega
        · push_neg at hs
          have hia : a.intersect s e = none := by
            unfold Interval.intersect
            rw [if_neg (fun hg => absurd hg.2 (by omega))]
          have htail := ih s hse hdtl hb2
            (by simp only [headStart]; omega) hltl (by simp)
          rw [sumOlen_cons, olen_of_none hia, htail]
          omega

/-! ### The residence loop -/

lemma resLoop_skip (trips : List Interval) (tc : Option String) (it : Bool)
    (s e : Int) :
    ∀ (l : List Interval) (acc : DayMap × Option Int),
      (∀ i ∈ l, i.intersect s e = none) →
      resLoop trips tc it s e l acc = .ok acc := by
  intro l
  induction l with
  | nil => intro acc _; rfl
  | cons a tl ih =>
    intro acc hnone
    have hstep : resStep trips tc it s e acc a = .ok acc := by
      unfold resStep
      simp only [hnone a (by simp)]
    simp only [resLoop, hstep]
    exact ih acc (fun i hi => hnone i (by simp [hi]))

lemma resLoop_invariant (trips : List Interval) (tc : Option String) (it : Bool)
    (s e : Int) :
    ∀ (l : List Interval) (acc : DayMap × Option Int) (d' : DayMap)
      (t' : Option Int),
      resLoop trips tc it s e l acc = .ok (d', t') →
      (acc.2 = none ∨ (acc.2 = some (e - s + 1) ∧ acc.1 ≠ [])) →
      (t' = none ∨ (t' = some (e - s + 1) ∧ d' ≠ [])) := by
  intro l
  induction l with
  | nil =>
    intro acc d' t' h hinv
    simp only [resLoop, Except.ok.injEq] at h
    subst h
    simpa using hinv
  | cons a tl ih =>
    intro acc d' t' h hinv
    simp only [resLoop] at h
    cases hstep : resStep trips tc it s e acc a with
    | error err => rw [hstep] at h; cases h
    | ok acc' =>
      rw [hstep] at h
      apply ih acc' d' t' h
      unfold resStep at hstep
      cases hia : a.intersect s e with
      | none =>
        simp only [hia, Except.ok.injEq] at hstep
        rw [← hstep]
        exact hinv
      | some p =>
        obtain ⟨ts, te⟩ := p
        simp only [hia] at hstep
        split_ifs at hstep
        all_goals
          cases hstep
          exact Or.inr ⟨rfl, addTo_ne_nil _ _ _⟩

lemma resLoop_ok (trips : List Interval) (tc : Option String) (it : Bool)
    (s e : Int) (hse : s ≤ e) :
    ∀ (l : List Interval), (∀ i ∈ l, i.start ≤ i.stop) →
      ∀ (acc : DayMap × Option Int),
      ∃ d', resLoop trips tc it s e l acc =
          .ok (d', if l.any (fun i => (i.intersect s e).isSome)
                   then some (e - s + 1) else acc.2) ∧
        sumValues d' = sumValues acc.1 + sumOlen l s e := by
  intro l
  induction l with
  | nil =>
    intro _ acc
    refine ⟨acc.1, ?_, by rw [sumOlen_nil]; omega⟩
    simp [resLoop]
  | cons a tl ih =>
    intro hd acc
    have hda : a.start ≤ a.stop := hd a (by simp)
    have hdtl : ∀ i ∈ tl, i.start ≤ i.stop :=
      fun i hi => hd i (List.mem_cons_of_mem _ hi)
    cases hia : a.intersect s e with
    | none =>
      have hstep : resStep trips tc it s e acc a = .ok acc := by
        unfold resStep
        simp only [hia]
      obtain ⟨d', h1, h2⟩ := ih hdtl acc
      refine ⟨d', ?_, ?_⟩
      · simp only [resLoop, hstep, h1, List.any_cons, hia, Option.isSome_none,
          Bool.false_or]
      · rw [h2, sumOlen_cons, olen_of_none hia, zero_add]
    | some p =>
      obtain ⟨ts, te⟩ := p
      have hle : ts ≤ te := intersect_le hse hda hia
      have hstep : resStep trips tc it s e acc a =
          .ok (addTo (if it then processTrips trips tc ts te a.country acc.1
                      else acc.1) a.country (te - ts + 1),
               some (e - s + 1)) := by
        unfold resStep
        simp only [hia]
        rw [if_pos (by omega)]
      obtain ⟨d', h1, h2⟩ := ih hdtl
        (addTo (if it then processTrips trips tc ts te a.country acc.1
                else acc.1) a.country (te - ts + 1), some (e - s + 1))
      refine ⟨d', ?_, ?_⟩
      · simp only [resLoop, hstep, h1, List.any_cons, hia, Option.isSome_some,
          Bool.true_or, ite_self, if_true]
      · rw [h2, sumValues_addTo, sumOlen_cons, olen_of_some hia]
        have hneutral : sumValues (if it then
            processTrips trips tc ts te a.country acc.1 else acc.1) =
            sumValues acc.1 := by
          split_ifs
          · exact sumValues_processTrips _ _ _ _ _ _
          · rfl
        rw [hneutral]
        ring

lemma findLocations_ok {cal : TaxCalendar} {s e : Int} {tc : Option String}
    {it : Bool} {m : DayMap} (h : findLocations cal s e tc it = .ok m) :
    sumValues m = e - s + 1 ∧ m ≠ [] := by
  unfold findLocations at h
  cases hl : resLoop cal.businesstrips tc it s e cal.residence ([], none) with
  | error err => rw [hl] at h; cases h
  | ok p =>
    obtain ⟨d', t'⟩ := p
    rw [hl] at h
    have hinv := resLoop_invariant cal.businesstrips tc it s e cal.residence
      ([], none) d' t' hl (Or.inl rfl)
    rcases hinv with hnone | ⟨hsome, hne⟩
    · subst hnone
      cases h
    · subst hsome
      dsimp only at h
      split_ifs at h with hmm
      all_goals cases h
      push_neg at hmm
      exact ⟨hmm, hne⟩

/-! ### Heap-level construction lemmas -/

lemma pyInitChecks_ok {h2 : Heap} {rR rT : Nat} {ty : Int}
    {obj : PyTaxCalendar} (h : pyInitChecks h2 rR rT ty = .ok obj) :
    obj.residenceRef = rR ∧ obj.tripsRef = rT := by
  unfold pyInitChecks at h
  split at h
  · cases h
  · split at h
    · cases h
    · split_ifs at h
      cases h
      exact ⟨rfl, rfl⟩

lemma sortHeap_res {h : Heap} {rR rT : Nat} (hne : rR ≠ rT) :
    sortHeap h rR rT rR = sortByStart (h rR) := by
  unfold sortHeap
  dsimp only
  rw [if_neg hne, if_pos rfl]

lemma sortHeap_trips {h : Heap} {rR rT : Nat} (hne : rR ≠ rT) :
    sortHeap h rR rT rT = sortByStart (h rT) := by
  unfold sortHeap
  dsimp only
  rw [if_pos rfl, if_neg (Ne.symm hne)]

lemma sortHeap_frame {h : Heap} {rR rT r : Nat} (h1 : r ≠ rR) (h2 : r ≠ rT) :
    sortHeap h rR rT r = h r := by
  unfold sortHeap
  dsimp only
  rw [if_neg h2, if_neg h1]

/-! ### Concrete calendars used by the claims -/

/-- Residence of the worked example: all of 2013 in Japan. -/
def res5 : List Interval :=
  [⟨daysFromCivil 2013 1 1, daysFromCivil 2013 12 31, "JP"⟩]

/-- Trips of the worked example: ten days in the US in June 2013. -/
def trips5 : List Interval :=
  [⟨daysFromCivil 2013 6 1, daysFromCivil 2013 6 10, "US"⟩]

/-- The calendar `mkTaxCalendar res5 trips5 2025` evaluates to. -/
def cal5 : TaxCalendar := ⟨res5, trips5, [2013]⟩

/-- Residence segment ending 2014-01-10. -/
def resSameDayA : Interval := ⟨daysFromCivil 2014 1 1, daysFromCivil 2014 1 10, "US"⟩

/-- Residence segment starting the same day, 2014-01-10. -/
def resSameDayB : Interval := ⟨daysFromCivil 2014 1 10, daysFromCivil 2014 1 20, "JP"⟩

/-- A full-year residence segment for 2014. -/
def resFull2014 : Interval := ⟨daysFromCivil 2014 1 1, daysFromCivil 2014 12 31, "US"⟩

/-- Business trip ending 2014-02-10. -/
def tripSameDayA : Interval := ⟨daysFromCivil 2014 2 1, daysFromCivil 2014 2 10, "JP"⟩

/-- Business trip starting the same day, 2014-02-10. -/
def tripSameDayB : Interval := ⟨daysFromCivil 2014 2 10, daysFromCivil 2014 2 20, "FR"⟩

/-- The calendar built from `resFull2014` and the two boundary-sharing trips. -/
def cal2 : TaxCalendar := ⟨[resFull2014], [tripSameDayA, tripSameDayB], [2014]⟩

/-- Residence: ten days of January 2013 in Japan. -/
def res3 : List Interval :=
  [⟨daysFromCivil 2013 1 1, daysFromCivil 2013 1 10, "JP"⟩]

/-- Two valid trips sharing the boundary day 2013-01-06. -/
def trips3 : List Interval :=
  [⟨daysFromCivil 2013 1 1, daysFromCivil 2013 1 6, "US"⟩,
   ⟨daysFromCivil 2013 1 6, daysFromCivil 2013 1 10, "FR"⟩]

/-- The calendar `mkTaxCalendar res3 trips3 2025` evaluates to. -/
def cal3 : TaxCalendar := ⟨res3, trips3, [2013]⟩

/-- Residence: all of 2013 in the US. -/
def res4 : List Interval :=
  [⟨daysFromCivil 2013 1 1, daysFromCivil 2013 12 31, "US"⟩]

/-- A ten-day business trip to Japan in June 2013. -/
def trip4 : Interval := ⟨daysFromCivil 2013 6 1, daysFromCivil 2013 6 10, "JP"⟩

/-- US-residence calendar with the Japan trip present. -/
def cal4t : TaxCalendar := ⟨res4, [trip4], [2013]⟩

/-- US-residence calendar with the Japan trip absent. -/
def cal4n : TaxCalendar := ⟨res4, [], [2013]⟩

/-- Caller's heap for the mutation claim: reference `0` holds an unsorted
(reversed) two-segment residence list, reference `1` an empty trip list. -/
def heapW : Heap := fun r =>
  if r = 0 then
    [⟨daysFromCivil 2014 7 1, daysFromCivil 2014 12 31, "JP"⟩,
     ⟨daysFromCivil 2014 1 1, daysFromCivil 2014 6 30, "US"⟩]
  else []

/-! ### Claim theorems -/

/-- C5: for the calendar with residence `[2013-01-01..2013-12-31 : "JP"]`
and the single trip `[2013-06-01..2013-06-10 : "US"]`,
`FindLocations(2013-01-01, 2013-12-31, taxCountry="JP",
includeTrips=true)` returns exactly `{"JP": 355, "US": 10}` (in the
engine's insertion order, `US` first) with sum 365, and the same call with
`includeTrips=false` returns exactly `{"JP": 365}`. -/
theorem findLocations_example_2013 :
    mkTaxCalendar res5 trips5 2025 = .ok cal5 ∧
    findLocations cal5 (daysFromCivil 2013 1 1) (daysFromCivil 2013 12 31)
      (some "JP") true = .ok [("US", 10), ("JP", 355)] ∧
    sumValues [("US", 10), ("JP", 355)] = 365 ∧
    findLocations cal5 (daysFromCivil 2013 1 1) (daysFromCivil 2013 12 31)
      (some "JP") false = .ok [("JP", 365)] ∧
    sumValues [("JP", 365)] = 365 :=
  ⟨rfl, rfl, rfl, rfl, rfl⟩

/-- C2 counterexample: a residence list in which segment A ends 2014-01-10
and segment B starts 2014-01-10 does NOT construct successfully — the
same-day boundary passes the strict overlap check but the residence
contiguity check then rejects it (`next.start - this.end` is `0`, not one
day), so construction fails with the contiguity error. -/
theorem sameDayResidence_construction_fails :
    mkTaxCalendar [resSameDayA, resSameDayB] [] 2025 = .error .nonContiguous :=
  rfl

/-- C2 amended: the same-day boundary is indeed not an overlap under the
strict `end > next.start` check (`CheckIntervals` accepts the pair), but a
residence list with that boundary still fails construction, with the
contiguity error rather than the overlap error; a business-trip list with
a same-day boundary, which has no contiguity requirement, constructs
successfully. -/
theorem sameDayBoundary_strict_check :
    adjacentOk (sortByStart [resSameDayA, resSameDayB]) = true ∧
    checkIntervals (sortByStart [resSameDayA, resSameDayB]) = .ok () ∧
    mkTaxCalendar [resSameDayA, resSameDayB] [] 2025 = .error .nonContiguous ∧
    mkTaxCalendar [resFull2014] [tripSameDayA, tripSameDayB] 2025 = .ok cal2 :=
  ⟨rfl, rfl, rfl, rfl⟩

/-- C8: every query (`GetYears`, `FindLocations`, `FindLocationsForYear`)
leaves the calendar's state unchanged — their method bodies assign no
attribute — so repeated calls with identical arguments return equal
results. -/
theorem queries_readonly (cal : TaxCalendar) (s e : Int) (tc : Option String)
    (it : Bool) (y : Int) :
    (getYearsM cal).2 = cal ∧
    (findLocationsM cal s e tc it).2 = cal ∧
    (findLocationsForYearM cal y).2 = cal ∧
    (findLocationsM ((findLocationsM cal s e tc it).2) s e tc it).1 =
      (findLocationsM cal s e tc it).1 ∧
    (findLocationsForYearM ((findLocationsM cal s e tc it).2) y).1 =
      (findLocationsForYearM cal y).1 ∧
    (getYearsM ((findLocationsForYearM cal y).2)).1 = (getYearsM cal).1 :=
  ⟨rfl, rfl, rfl, rfl, rfl, rfl⟩

/-- C9: when no residence segment intersects the query window,
`FindLocations` raises (the `expected_total` local is read before any
assignment) instead of returning an empty mapping; consequently a returned
mapping is never empty. -/
theorem windowOutsideResidence (cal : TaxCalendar) (s e : Int)
    (tc : Option String) (it : Bool) :
    ((∀ i ∈ cal.residence, i.intersect s e = none) →
      findLocations cal s e tc it = .error .unboundLocal) ∧
    (∀ m, findLocations cal s e tc it = .ok m → m ≠ []) := by
  constructor
  · intro hall
    unfold findLocations
    rw [resLoop_skip cal.businesstrips tc it s e cal.residence ([], none) hall]
  · intro m hm
    exact (findLocations_ok hm).2

/-- Witness for C9: the 2013 calendar queried at the single day 2014-05-05
(after its residence timeline) raises, and the mapping returned by the
covered 2013 query is non-empty. -/
theorem windowOutsideResidence_witness :
    findLocations cal5 (daysFromCivil 2014 5 5) (daysFromCivil 2014 5 5)
      none true = .error .unboundLocal ∧
    ([("US", 10), ("JP", 355)] : DayMap) ≠ [] :=
  ⟨(windowOutsideResidence cal5 (daysFromCivil 2014 5 5)
      (daysFromCivil 2014 5 5) none true).1 (by decide),
   (windowOutsideResidence cal5 (daysFromCivil 2013 1 1)
      (daysFromCivil 2013 12 31) (some "JP") true).2
      [("US", 10), ("JP", 355)] rfl⟩

/-- C3 counterexample: on the validly constructed calendar `cal3` (one JP
residence segment, two trips that legally share the boundary day
2013-01-06), the JP bucket ends at `-1` after the trip-day debits for that
segment, and `FindLocations` returns normally — no error of any kind is
signalled for the negative running bucket total. -/
theorem negativeBucket_without_error :
    mkTaxCalendar res3 trips3 2025 = .ok cal3 ∧
    findLocations cal3 (daysFromCivil 2013 1 1) (daysFromCivil 2013 1 10)
      (some "US") true = .ok [("US", 6), ("JP", -1), ("FR", 5)] ∧
    getD [("US", 6), ("JP", -1), ("FR", 5)] "JP" = -1 :=
  ⟨rfl, rfl, rfl⟩

/-- C1: for every validly constructed calendar and every window `[s, e]`
(with `s ≤ e`) fully covered by the residence timeline, `FindLocations`
returns a mapping whose values sum to exactly `e - s + 1`, for every
`taxCountry` and both `includeTrips` modes; moreover any mapping it ever
returns for the window sums to `e - s + 1` (a mismatch raises the
totals-mismatch error instead of returning). -/
theorem findLocations_window_total (res0 trips0 : List Interval) (ty : Int)
    (cal : TaxCalendar) (hmk : mkTaxCalendar res0 trips0 ty = .ok cal)
    (s e : Int) (hse : s ≤ e) (hlo : headStart cal.residence ≤ s)
    (hhi : e ≤ lastStop cal.residence) (tc : Option String) (it : Bool) :
    (∀ m, findLocations cal s e tc it = .ok m → sumValues m = e - s + 1) ∧
    (∃ m, findLocations cal s e tc it = .ok m ∧ sumValues m = e - s + 1) := by
  obtain ⟨_, _, hnn, hdr, _, hc, _, _⟩ := mkTaxCalendar_ok hmk
  refine ⟨fun m hm => (findLocations_ok hm).1, ?_⟩
  obtain ⟨d', hfold, hsum⟩ := resLoop_ok cal.businesstrips tc it s e hse
    cal.residence hdr ([], none)
  have hcov := sumOlen_covers e cal.residence s hse hdr hc hlo hhi hnn
  have hany : cal.residence.any (fun i => (i.intersect s e).isSome) = true := by
    by_contra hno
    have hall : ∀ i ∈ cal.residence, i.intersect s e = none := by
      intro i hi
      by_contra hne
      exact hno (List.any_eq_true.mpr ⟨i, hi, by
        cases hoi : i.intersect s e with
        | none => exact absurd hoi hne
        | some p => simp [hoi]⟩)
    have h0 : sumOlen cal.residence s e = 0 :=
      sumOlen_zero (fun i hi => olen_of_none (hall i hi))
    rw [hcov] at h0
    omega
  have hfold2 : resLoop cal.businesstrips tc it s e cal.residence ([], none) =
      .ok (d', some (e - s + 1)) := by
    rw [hfold]
    simp [hany]
  have h0 : sumValues ([] : DayMap) = 0 := rfl
  rw [h0, hcov] at hsum
  have hsum' : sumValues d' = e - s + 1 := by omega
  refine ⟨d', ?_, hsum'⟩
  unfold findLocations
  rw [hfold2]
  dsimp only
  rw [if_neg (not_ne_iff.mpr hsum')]

/-- Witness for C1: the covered 2013 window on the worked-example calendar,
with `taxCountry="JP"` and trips included, sums to the inclusive day count
of 2013. -/
theorem findLocations_window_total_witness :
    sumValues [("US", 10), ("JP", 355)] =
      daysFromCivil 2013 12 31 - daysFromCivil 2013 1 1 + 1 :=
  (findLocations_window_total res5 trips5 2025 cal5 rfl
    (daysFromCivil 2013 1 1) (daysFromCivil 2013 12 31) (by decide)
    (by decide) (by decide) (some "JP") true).1 [("US", 10), ("JP", 355)] rfl

/-- C3 amended: the in-loop assertion of `FindLocations` checks only that
the residence-segment overlap length (`numdays`) is non-negative, which
holds on every validly constructed calendar for every window with
`start ≤ end`, so the call never fails with the assertion error; segment
bucket totals, by contrast, can go negative after the trip-day debits
without any error being signalled (see the counterexample). -/
theorem findLocations_no_assertionError (res0 trips0 : List Interval)
    (ty : Int) (cal : TaxCalendar) (hmk : mkTaxCalendar res0 trips0 ty = .ok cal)
    (s e : Int) (hse : s ≤ e) (tc : Option String) (it : Bool) :
    findLocations cal s e tc it ≠ .error .assertionError := by
  obtain ⟨_, _, _, hdr, _, _, _, _⟩ := mkTaxCalendar_ok hmk
  obtain ⟨d', hfold, _⟩ := resLoop_ok cal.businesstrips tc it s e hse
    cal.residence hdr ([], none)
  unfold findLocations
  rw [hfold]
  dsimp only
  split
  · simp
  · split_ifs <;> simp

/-- Witness for C3: the boundary-sharing-trips calendar, queried over its
residence window, does not fail with the assertion error. -/
theorem findLocations_no_assertionError_witness :
    findLocations cal3 (daysFromCivil 2013 1 1) (daysFromCivil 2013 1 10)
      (some "US") true ≠ .error .assertionError :=
  findLocations_no_assertionError res3 trips3 2025 cal3 rfl
    (daysFromCivil 2013 1 1) (daysFromCivil 2013 1 10) (by decide)
    (some "US") true

/-- C6: whenever `FindLocationsForYear(year)` returns a mapping, that
mapping is the result of `FindLocations` for January 1 through
December 31 of the year with the defaults `taxcountry=None`,
`include_trips=True`, and its values sum to 365 or 366; a year total
outside `{365, 366}` fails with the invalid-year-total error instead. -/
theorem findLocationsForYear_total :
    (∀ (cal : TaxCalendar) (y : Int) (m : DayMap),
      findLocationsForYear cal y = .ok m →
        findLocations cal (daysFromCivil y 1 1) (daysFromCivil y 12 31)
          none true = .ok m ∧ (sumValues m = 365 ∨ sumValues m = 366)) ∧
    (∀ (cal : TaxCalendar) (y : Int) (m : DayMap),
      findLocations cal (daysFromCivil y 1 1) (daysFromCivil y 12 31)
        none true = .ok m → ¬(sumValues m = 365 ∨ sumValues m = 366) →
      findLocationsForYear cal y = .error .invalidYearTotal) := by
  constructor
  · intro cal y m h
    unfold findLocationsForYear at h
    cases hf : findLocations cal (daysFromCivil y 1 1) (daysFromCivil y 12 31)
        none true with
    | error err => rw [hf] at h; cases h
    | ok locs =>
      rw [hf] at h
      dsimp only at h
      split_ifs at h with hs
      cases h
      exact ⟨rfl, hs⟩
  · intro cal y m h hns
    unfold findLocationsForYear
    rw [h]
    dsimp only
    rw [if_neg hns]

/-- Witness for C6: `FindLocationsForYear(2013)` on the worked-example
calendar returns the `FindLocations` result for the full year, summing
to 365. -/
theorem findLocationsForYear_total_witness :
    findLocations cal5 (daysFromCivil 2013 1 1) (daysFromCivil 2013 12 31)
      none true = .ok [("US", 10), ("JP", 355)] ∧
    (sumValues [("US", 10), ("JP", 355)] = 365 ∨
     sumValues [("US", 10), ("JP", 355)] = 366) :=
  findLocationsForYear_total.1 cal5 2013 [("US", 10), ("JP", 355)] rfl

/-- C7: `IsCountryOrStateOf(candidate, parent)` is a pure predicate that
holds exactly when the candidate equals the parent or has the form
`parent + "_" + suffix`; in particular `("US_CA", "US")` is true,
`("US_CA", "JP")` is false and `("US", "US")` is true. -/
theorem isCountryOrStateOf_spec :
    (∀ c p : String, IsCountryOrStateOf c (some p) = true ↔
      (c = p ∨ ∃ suf : String, c = p ++ "_" ++ suf)) ∧
    IsCountryOrStateOf "US_CA" (some "US") = true ∧
    IsCountryOrStateOf "US_CA" (some "JP") = false ∧
    IsCountryOrStateOf "US" (some "US") = true := by
  refine ⟨fun c p => ?_, by decide, by decide, by decide⟩
  simp only [IsCountryOrStateOf, startswith, Bool.or_eq_true, beq_iff_eq,
    List.isPrefixOf_iff_prefix]
  constructor
  · rintro (h | h)
    · exact Or.inl h
    · obtain ⟨t, ht⟩ := h
      refine Or.inr ⟨⟨t⟩, ?_⟩
      apply String.ext
      show c.data = (p ++ "_" ++ (⟨t⟩ : String)).data
      rw [String.data_append]
      exact ht.symm
  · rintro (h | ⟨suf, rfl⟩)
    · exact Or.inl h
    · refine Or.inr ⟨suf.data, ?_⟩
      simp [String.data_append]

/-! ### The Japan carve-out -/

lemma tripStep_jp_skip {t : Interval} (ht : t.country = "JP") (a b : Int)
    (c : String) (days : DayMap) : tripStep (some "JP") a b c days t = days := by
  unfold tripStep
  cases hia : t.intersect a b with
  | none => rfl
  | some p =>
    obtain ⟨x, y⟩ := p
    dsimp only
    rw [if_pos ⟨ht, rfl⟩]

lemma processTrips_jp_skip (trips1 trips2 : List Interval) {t : Interval}
    (ht : t.country = "JP") (a b : Int) (c : String) (days : DayMap) :
    processTrips (trips1 ++ t :: trips2) (some "JP") a b c days =
      processTrips (trips1 ++ trips2) (some "JP") a b c days := by
  unfold processTrips
  rw [List.foldl_append, List.foldl_append, List.foldl_cons, tripStep_jp_skip ht]

lemma resStep_jp_skip (trips1 trips2 : List Interval) {t : Interval}
    (ht : t.country = "JP") (it : Bool) (s e : Int)
    (acc : DayMap × Option Int) (r : Interval) :
    resStep (trips1 ++ t :: trips2) (some "JP") it s e acc r =
      resStep (trips1 ++ trips2) (some "JP") it s e acc r := by
  unfold resStep
  cases r.intersect s e with
  | none => rfl
  | some p =>
    obtain ⟨ts, te⟩ := p
    dsimp only
    rw [processTrips_jp_skip trips1 trips2 ht]

lemma resLoop_jp_skip (trips1 trips2 : List Interval) {t : Interval}
    (ht : t.country = "JP") (it : Bool) (s e : Int) :
    ∀ (l : List Interval) (acc : DayMap × Option Int),
      resLoop (trips1 ++ t :: trips2) (some "JP") it s e l acc =
        resLoop (trips1 ++ trips2) (some "JP") it s e l acc := by
  intro l
  induction l with
  | nil => intro acc; rfl
  | cons a tl ih =>
    intro acc
    simp only [resLoop, resStep_jp_skip trips1 trips2 ht]
    cases resStep (trips1 ++ trips2) (some "JP") it s e acc a with
    | error err => rfl
    | ok acc2 => exact ih acc2

/-- C4: a business trip whose destination label is `"JP"` is ignored
entirely when `taxCountry` is `"JP"`: for any residence list and any trip
list, deleting such a trip does not change the result of `FindLocations`
at all; concretely, on a US-residence 2013 calendar with a ten-day Japan
trip, the buckets with `taxCountry="JP"` are identical with and without
the trip, while the same query with `taxCountry="US"` changes both the
destination (`JP`) bucket and the residence-country (`US`) bucket. -/
theorem jp_carveout :
    (∀ (res trips1 trips2 : List Interval) (yrs : List Int) (t : Interval),
      t.country = "JP" → ∀ (s e : Int) (it : Bool),
      findLocations ⟨res, trips1 ++ t :: trips2, yrs⟩ s e (some "JP") it =
        findLocations ⟨res, trips1 ++ trips2, yrs⟩ s e (some "JP") it) ∧
    findLocations cal4t (daysFromCivil 2013 1 1) (daysFromCivil 2013 12 31)
      (some "JP") true = .ok [("US", 365)] ∧
    findLocations cal4n (daysFromCivil 2013 1 1) (daysFromCivil 2013 12 31)
      (some "JP") true = .ok [("US", 365)] ∧
    findLocations cal4t (daysFromCivil 2013 1 1) (daysFromCivil 2013 12 31)
      (some "US") true = .ok [("JP", 10), ("US", 355)] ∧
    findLocations cal4n (daysFromCivil 2013 1 1) (daysFromCivil 2013 12 31)
      (some "US") true = .ok [("US", 365)] ∧
    getD [("JP", 10), ("US", 355)] "JP" ≠ getD [("US", 365)] "JP" ∧
    getD [("JP", 10), ("US", 355)] "US" ≠ getD [("US", 365)] "US" := by
  refine ⟨?_, rfl, rfl, rfl, rfl, by decide, by decide⟩
  intro res trips1 trips2 yrs t ht s e it
  unfold findLocations
  dsimp only
  rw [resLoop_jp_skip trips1 trips2 ht]

/-- Witness for C4: dropping the 2013 Japan trip from the US-residence
calendar leaves the `taxCountry="JP"` query unchanged. -/
theorem jp_carveout_witness :
    findLocations ⟨res4, [] ++ trip4 :: [], [2013]⟩ (daysFromCivil 2013 1 1)
      (daysFromCivil 2013 12 31) (some "JP") true =
    findLocations ⟨res4, [] ++ [], [2013]⟩ (daysFromCivil 2013 1 1)
      (daysFromCivil 2013 12 31) (some "JP") true :=
  jp_carveout.1 res4 [] [] [2013] trip4 rfl (daysFromCivil 2013 1 1)
    (daysFromCivil 2013 12 31) true

/-- C10: `TaxCalendar.__init__` mutates its arguments: it stores the
caller's residence and business-trip lists by reference (the constructed
object's attributes are exactly those references) and sorts each list in
place ascending by interval start date, so after successful construction
the caller's original list objects hold a permutation of their old
contents sorted by start date, and every unrelated list object is
untouched. -/
theorem initMutatesArgs (h : Heap) (rR rT : Nat) (ty : Int)
    (obj : PyTaxCalendar) (hne : rR ≠ rT)
    (hok : (pyInit h rR rT ty).2 = .ok obj) :
    obj.residenceRef = rR ∧ obj.tripsRef = rT ∧
    (pyInit h rR rT ty).1 rR = sortByStart (h rR) ∧
    (pyInit h rR rT ty).1 rT = sortByStart (h rT) ∧
    ((pyInit h rR rT ty).1 rR).Perm (h rR) ∧
    ((pyInit h rR rT ty).1 rT).Perm (h rT) ∧
    List.Sorted (fun a b => a.start ≤ b.start) ((pyInit h rR rT ty).1 rR) ∧
    ∀ r, r ≠ rR → r ≠ rT → (pyInit h rR rT ty).1 r = h r := by
  unfold pyInit at hok ⊢
  by_cases h0 : (h rR).isEmpty = true
  · rw [if_pos h0] at hok
    cases hok
  · rw [if_neg h0] at hok
    rw [if_neg h0]
    dsimp only at hok ⊢
    obtain ⟨hr1, hr2⟩ := pyInitChecks_ok hok
    refine ⟨hr1, hr2, sortHeap_res hne, sortHeap_trips hne, ?_, ?_, ?_, ?_⟩
    · rw [sortHeap_res hne]
      exact sortByStart_perm (h rR)
    · rw [sortHeap_trips hne]
      exact sortByStart_perm (h rT)
    · rw [sortHeap_res hne]
      exact List.sorted_insertionSort _ (h rR)
    · intro r hrr hrt
      exact sortHeap_frame hrr hrt

/-- Witness for C10: the caller's reversed two-segment residence list at
reference `0` is reordered ascending in place by a successful
construction. -/
theorem initMutatesArgs_witness :
    (pyInit heapW 0 1 2025).1 0 = sortByStart (heapW 0) ∧
    ((pyInit heapW 0 1 2025).1 0).Perm (heapW 0) ∧
    List.Sorted (fun a b => a.start ≤ b.start) ((pyInit heapW 0 1 2025).1 0) :=
  ⟨(initMutatesArgs heapW 0 1 2025 ⟨0, 1, [2014]⟩ (by decide) rfl).2.2.1,
   (initMutatesArgs heapW 0 1 2025 ⟨0, 1, [2014]⟩ (by decide) rfl).2.2.2.2.1,
   (initMutatesArgs heapW 0 1 2025 ⟨0, 1, [2014]⟩ (by decide) rfl).2.2.2.2.2.2.1⟩

end TaxCal
